import Mathlib

/-!
Verification of the SecureX scan-orchestration request handler
(`supabase/functions/security-scanner/index.ts`) against its specification.

The development shallowly embeds the handler: the database is explicit state
(three tables as lists of rows), the external collaborators (auth backend,
completion API, per-statement write outcomes, clock, randomness) are an
explicit environment, and the handler is a pure function from environment,
request and database to a response, a successor database and a trace of the
writes it attempted.  The tolerant JSON extraction (triple-backtick fence
stripping followed by JSON.parse) is embedded by an executable JSON parser
and an executable model of the two fence regexes.
-/

/-! ### JSON values

`JSON.parse` output.  Numbers are kept exact as mantissa times a power of
ten, so no floating-point behavior is modelled (none of the verified
properties depends on float rounding). -/

inductive Json where
  | null
  | bool (b : Bool)
  | num (mantissa : Int) (exp10 : Int)
  | str (s : String)
  | arr (items : List Json)
  | obj (fields : List (String × Json))
deriving Repr

mutual

def jeq : Json → Json → Bool
  | .null, .null => true
  | .bool a, .bool b => a == b
  | .num m e, .num m' e' => m == m' && e == e'
  | .str s, .str t => s == t
  | .arr xs, .arr ys => jeqArr xs ys
  | .obj fs, .obj gs => jeqObj fs gs
  | _, _ => false

def jeqArr : List Json → List Json → Bool
  | x :: xs, y :: ys => jeq x y && jeqArr xs ys
  | [], [] => true
  | _, _ => false

def jeqObj : List (String × Json) → List (String × Json) → Bool
  | [], [] => true
  | (k, v) :: fs, (k', v') :: gs => k == k' && jeq v v' && jeqObj fs gs
  | _, _ => false

end

mutual

theorem jeq_iff : ∀ a b : Json, jeq a b = true ↔ a = b
  | .null, b => by cases b <;> simp [jeq]
  | .bool a, b => by cases b <;> simp [jeq]
  | .num m e, b => by cases b <;> simp [jeq]
  | .str s, b => by cases b <;> simp [jeq]
  | .arr xs, b => by
      cases b <;> simp [jeq]
      exact jeqArr_iff xs _
  | .obj fs, b => by
      cases b <;> simp [jeq]
      exact jeqObj_iff fs _

theorem jeqArr_iff : ∀ xs ys : List Json, jeqArr xs ys = true ↔ xs = ys
  | [], ys => by cases ys <;> simp [jeqArr]
  | x :: xs, ys => by
      cases ys with
      | nil => simp [jeqArr]
      | cons y ys => simp [jeqArr, jeq_iff x y, jeqArr_iff xs ys]

theorem jeqObj_iff : ∀ fs gs : List (String × Json), jeqObj fs gs = true ↔ fs = gs
  | [], gs => by cases gs <;> simp [jeqObj]
  | (k, v) :: fs, gs => by
      cases gs with
      | nil => simp [jeqObj]
      | cons g gs =>
        obtain ⟨k', v'⟩ := g
        simp [jeqObj, jeq_iff v v', jeqObj_iff fs gs, and_assoc]

end

instance : DecidableEq Json := fun a b =>
  decidable_of_iff (jeq a b = true) (jeq_iff a b)

/-- JavaScript property read on a parsed value: `obj[key]` on an object,
`undefined` (here `none`) on anything else.  When the same key occurs twice
in a JSON object literal, `JSON.parse` keeps the later binding, so lookup
prefers the last occurrence. -/
def jgetFields : List (String × Json) → String → Option Json
  | [], _ => none
  | (k, v) :: rest, key =>
    match jgetFields rest key with
    | some w => some w
    | none => if k = key then some v else none

def jget (j : Json) (key : String) : Option Json :=
  match j with
  | Json.obj fields => jgetFields fields key
  | _ => none

/-- JavaScript truthiness of a parsed JSON value (`NaN` cannot arise from
`JSON.parse`). -/
def jsTruthy : Json → Bool
  | Json.null => false
  | Json.bool b => b
  | Json.num m _ => !(m == 0)
  | Json.str s => !(s == "")
  | Json.arr _ => true
  | Json.obj _ => true

/-- JavaScript `.length` of a parsed JSON value: array length, string length,
and `undefined` (`none`) for every other value. -/
def jsLength : Json → Option Nat
  | Json.arr xs => some xs.length
  | Json.str s => some s.length
  | _ => none

/-! ### A JSON parser (the model of `JSON.parse`)

Lexer and a stack-machine parser, both structurally recursive so that they
evaluate inside the kernel.  The grammar is RFC 8259 as `JSON.parse`
implements it: strict numbers (no leading zeros, no bare dot), string
escapes including hex escapes, no trailing tokens. -/

inductive JTok where
  | lbrace | rbrace | lbrack | rbrack | colon | comma
  | jnull | jtrue | jfalse
  | jstr (s : String)
  | jnum (mantissa : Int) (exp10 : Int)
deriving Repr, DecidableEq

/-- Whitespace accepted between JSON tokens (RFC 8259). -/
def isJsonWs : Char → Bool
  | ' ' | '\t' | '\n' | '\r' => true
  | _ => false

def isDigitChar (c : Char) : Bool := c.isDigit

def digitsVal (ds : List Char) : Nat :=
  ds.foldl (fun acc c => acc * 10 + (c.toNat - '0'.toNat)) 0

def grabDigits : List Char → List Char × List Char
  | [] => ([], [])
  | c :: cs =>
    if isDigitChar c then
      let (ds, r) := grabDigits cs
      (c :: ds, r)
    else ([], c :: cs)

def hexDigitVal (c : Char) : Option Nat :=
  if isDigitChar c then some (c.toNat - 48)
  else
    let l := c.toLower
    if 'a' ≤ l && l ≤ 'f' then some (l.toNat - 87) else none

/-- String body lexer, called after the opening quote; returns the decoded
string and the input after the closing quote. -/
def lexStrBody (acc : List Char) : List Char → Option (String × List Char)
  | [] => none
  | '"' :: rest => some (String.mk acc.reverse, rest)
  | '\\' :: esc =>
    match esc with
    | 'u' :: h1 :: h2 :: h3 :: h4 :: rest =>
      match hexDigitVal h1, hexDigitVal h2, hexDigitVal h3, hexDigitVal h4 with
      | some a, some b, some c, some d =>
        lexStrBody (Char.ofNat (((a * 16 + b) * 16 + c) * 16 + d) :: acc) rest
      | _, _, _, _ => none
    | '"' :: rest => lexStrBody ('"' :: acc) rest
    | '\\' :: rest => lexStrBody ('\\' :: acc) rest
    | '/' :: rest => lexStrBody ('/' :: acc) rest
    | 'b' :: rest => lexStrBody (Char.ofNat 8 :: acc) rest
    | 'f' :: rest => lexStrBody (Char.ofNat 12 :: acc) rest
    | 'n' :: rest => lexStrBody ('\n' :: acc) rest
    | 'r' :: rest => lexStrBody ('\r' :: acc) rest
    | 't' :: rest => lexStrBody ('\t' :: acc) rest
    | _ => none
  | c :: rest =>
    if c.toNat < 32 then none else lexStrBody (c :: acc) rest

/-- Number lexer, at the first character of the number ('-' or a digit);
JSON forbids leading zeros, a bare dot and an empty exponent. -/
def lexNum (cs : List Char) : Option ((Int × Int) × List Char) :=
  let (neg, cs1) : Bool × List Char :=
    match cs with
    | '-' :: r => (true, r)
    | _ => (false, cs)
  match cs1 with
  | [] => none
  | d :: ds =>
    if !(isDigitChar d) then none
    else
      let (intDs, rest1) : List Char × List Char :=
        if d = '0' then (['0'], ds) else grabDigits (d :: ds)
      let fracStep : Option (List Char × List Char) :=
        match rest1 with
        | '.' :: r =>
          match grabDigits r with
          | ([], _) => none
          | (fds, r') => some (fds, r')
        | _ => some ([], rest1)
      match fracStep with
      | none => none
      | some (fracDs, rest2) =>
        let expStep : Option (Int × List Char) :=
          match rest2 with
          | e :: r =>
            if e = 'e' || e = 'E' then
              let (negExp, r1) : Bool × List Char :=
                match r with
                | '-' :: r' => (true, r')
                | '+' :: r' => (false, r')
                | _ => (false, r)
              match grabDigits r1 with
              | ([], _) => none
              | (eds, r2) =>
                let ev : Int := digitsVal eds
                some ((if negExp then -ev else ev), r2)
            else some (0, rest2)
          | [] => some (0, rest2)
        match expStep with
        | none => none
        | some (e, rest3) =>
          let m : Int := (if neg then -1 else 1) * (digitsVal (intDs ++ fracDs) : Int)
          some ((m, e - (fracDs.length : Int)), rest3)

/-- Tokenizer; fuel is consumed once per character or token, so an input of
length n lexes completely with fuel n + 1. -/
def lexJson : Nat → List Char → Option (List JTok)
  | 0, _ => none
  | _, [] => some []
  | n + 1, c :: cs =>
    if isJsonWs c then lexJson n cs
    else if c = '{' then (lexJson n cs).map (JTok.lbrace :: ·)
    else if c = '}' then (lexJson n cs).map (JTok.rbrace :: ·)
    else if c = '[' then (lexJson n cs).map (JTok.lbrack :: ·)
    else if c = ']' then (lexJson n cs).map (JTok.rbrack :: ·)
    else if c = ':' then (lexJson n cs).map (JTok.colon :: ·)
    else if c = ',' then (lexJson n cs).map (JTok.comma :: ·)
    else if c = '"' then
      match lexStrBody [] cs with
      | some (s, rest) => (lexJson n rest).map (JTok.jstr s :: ·)
      | none => none
    else if c = '-' || isDigitChar c then
      match lexNum (c :: cs) with
      | some ((m, e), rest) => (lexJson n rest).map (JTok.jnum m e :: ·)
      | none => none
    else
      match c :: cs with
      | 'n' :: 'u' :: 'l' :: 'l' :: rest => (lexJson n rest).map (JTok.jnull :: ·)
      | 't' :: 'r' :: 'u' :: 'e' :: rest => (lexJson n rest).map (JTok.jtrue :: ·)
      | 'f' :: 'a' :: 'l' :: 's' :: 'e' :: rest => (lexJson n rest).map (JTok.jfalse :: ·)
      | _ => none

/-- Partial containers of the parsing machine: an array with the elements
seen so far (reversed), or an object with the members seen so far (reversed)
and the key whose value is being parsed. -/
inductive PFrame where
  | inArr (acc : List Json)
  | inObj (acc : List (String × Json)) (key : String)
deriving Repr, DecidableEq

/-- The parsing machine.  `Sum.inl ()` means a value is expected next;
`Sum.inr v` means the value `v` was just completed and the enclosing frame
must be extended or closed.  Rejects trailing tokens, as `JSON.parse` does. -/
def runParse : Nat → Sum Unit Json → List JTok → List PFrame → Option Json
  | 0, _, _, _ => none
  | n + 1, Sum.inl _, toks, stack =>
    match toks with
    | JTok.jnull :: r => runParse n (Sum.inr Json.null) r stack
    | JTok.jtrue :: r => runParse n (Sum.inr (Json.bool true)) r stack
    | JTok.jfalse :: r => runParse n (Sum.inr (Json.bool false)) r stack
    | JTok.jstr s :: r => runParse n (Sum.inr (Json.str s)) r stack
    | JTok.jnum m e :: r => runParse n (Sum.inr (Json.num m e)) r stack
    | JTok.lbrack :: JTok.rbrack :: r => runParse n (Sum.inr (Json.arr [])) r stack
    | JTok.lbrack :: r => runParse n (Sum.inl ()) r (PFrame.inArr [] :: stack)
    | JTok.lbrace :: JTok.rbrace :: r => runParse n (Sum.inr (Json.obj [])) r stack
    | JTok.lbrace :: JTok.jstr k :: JTok.colon :: r =>
      runParse n (Sum.inl ()) r (PFrame.inObj [] k :: stack)
    | _ => none
  | n + 1, Sum.inr v, toks, stack =>
    match stack with
    | [] =>
      match toks with
      | [] => some v
      | _ => none
    | PFrame.inArr acc :: s =>
      match toks with
      | JTok.comma :: r => runParse n (Sum.inl ()) r (PFrame.inArr (v :: acc) :: s)
      | JTok.rbrack :: r => runParse n (Sum.inr (Json.arr (v :: acc).reverse)) r s
      | _ => none
    | PFrame.inObj acc k :: s =>
      match toks with
      | JTok.comma :: JTok.jstr k' :: JTok.colon :: r =>
        runParse n (Sum.inl ()) r (PFrame.inObj ((k, v) :: acc) k' :: s)
      | JTok.rbrace :: r => runParse n (Sum.inr (Json.obj ((k, v) :: acc).reverse)) r s
      | _ => none

/-- The model of `JSON.parse` over a character list: `none` is the thrown
`SyntaxError`. -/
def jparse (cs : List Char) : Option Json :=
  match lexJson (cs.length + 1) cs with
  | some toks => runParse (2 * toks.length + 2) (Sum.inl ()) toks []
  | none => none

/-! ### The fence-stripping extraction

Model of
`content.match(/```json\s*([\s\S]*?)\s*```/) || content.match(/```\s*([\s\S]*?)\s*```/)`
followed by `(jsonMatch ? jsonMatch[1] : content).trim()`.  The regex engine
finds the leftmost start, takes the maximal whitespace run after the opening
literal, and the lazy group then ends at the earliest closing triple-backtick,
with the whitespace run immediately before that fence absorbed by the final
greedy `\s*`. -/

/-- JavaScript `\s` and `String.trim` whitespace, restricted to the
characters that can matter here (the remaining Unicode space separators of
the JS whitespace class are not exercised by this code path). -/
def isJsWs : Char → Bool
  | ' ' | '\t' | '\n' | '\r' | '\x0b' | '\x0c' | '\u00A0' | '\uFEFF' => true
  | _ => false

/-- Length of the maximal whitespace prefix. -/
def wsRunLen : List Char → Nat
  | [] => 0
  | c :: cs => if isJsWs c then wsRunLen cs + 1 else 0

/-- Does `pat` match at the head of the input? -/
def leadMatch : List Char → List Char → Bool
  | [], _ => true
  | _ :: _, [] => false
  | p :: ps, c :: cs => p == c && leadMatch ps cs

/-- Index of the first occurrence of `pat` (nonempty) in the input. -/
def firstOccIdx (pat : List Char) : List Char → Option Nat
  | [] => none
  | c :: cs =>
    if leadMatch pat (c :: cs) then some 0
    else (firstOccIdx pat cs).map (· + 1)

/-- The lazy capture, given the body after the opening literal and its
leading whitespace, and the index `y` of the first closing fence: everything
before the fence, minus the whitespace run immediately preceding it. -/
def fenceCapture (body : List Char) (y : Nat) : List Char :=
  let pre := body.take y
  pre.take (y - wsRunLen pre.reverse)

/-- Leftmost match of a pattern of the shape
`openTag ++ \s* ++ (lazy group) ++ \s* ++ three backticks`; returns the
captured group. -/
def findFence (openTag : List Char) : List Char → Option (List Char)
  | [] => none
  | c :: cs =>
    if leadMatch openTag (c :: cs) then
      let rest := (c :: cs).drop openTag.length
      let body := rest.drop (wsRunLen rest)
      match firstOccIdx "```".data body with
      | some y => some (fenceCapture body y)
      | none => findFence openTag cs
    else findFence openTag cs

/-- The extraction preference of the handler: a block tagged `json` first,
then any fenced block, then the raw text. -/
def extractJsonStr (content : List Char) : List Char :=
  match findFence "```json".data content with
  | some g => g
  | none =>
    match findFence "```".data content with
    | some g => g
    | none => content

/-- JavaScript `String.trim`. -/
def jsTrim (cs : List Char) : List Char :=
  ((cs.dropWhile isJsWs).reverse.dropWhile isJsWs).reverse

/-- The whole tolerant parse of the completion model's textual answer:
fence extraction, trim, `JSON.parse`; `none` is the caught parse error that
triggers the fallback. -/
def parseAiContent (content : String) : Option Json :=
  jparse (jsTrim (extractJsonStr content.data))

/-! ### Request validation (the `zod` schema)

`requestSchema = z.object({ scanId: z.string().uuid(), applicationId:
z.string().uuid() })`.  A zod object schema in its default mode requires an
object, validates the declared keys and strips (rather than rejects) any
additional keys.  The uuid check is zod 3.22's regex: eight-four-four-four-
twelve hex digits with a version nibble of 1 to 5, case-insensitive, or the
all-zero nil UUID. -/

def isHexDigit (c : Char) : Bool :=
  ('0' ≤ c && c ≤ '9') || ('a' ≤ c && c ≤ 'f') || ('A' ≤ c && c ≤ 'F')

/-- Split a character list on '-' separators. -/
def splitDash : List Char → List (List Char)
  | [] => [[]]
  | '-' :: cs => [] :: splitDash cs
  | c :: cs =>
    match splitDash cs with
    | g :: gs => (c :: g) :: gs
    | [] => [[c]]

def isUuid (s : String) : Bool :=
  (match splitDash s.data with
   | [g1, g2, g3, g4, g5] =>
     g1.length == 8 && g2.length == 4 && g3.length == 4 &&
     g4.length == 4 && g5.length == 12 &&
     (g1 ++ g2 ++ g3 ++ g4 ++ g5).all isHexDigit &&
     (match g3 with
      | v :: _ => '1' ≤ v && v ≤ '5'
      | [] => false)
   | _ => false) ||
  s == "00000000-0000-0000-0000-000000000000"

/-- One declared key of the schema: present, a string, and a valid UUID. -/
def checkUuidField (body : Json) (key : String) : Option String :=
  match jget body key with
  | some (Json.str s) => if isUuid s then some s else none
  | _ => none

/-- `requestSchema.safeParse`: the validated `(scanId, applicationId)` pair on
success, `none` on failure.  Keys beyond the two declared ones are stripped,
not rejected. -/
def safeParseReq (body : Json) : Option (String × String) :=
  match body with
  | Json.obj _ =>
    match checkUuidField body "scanId", checkUuidField body "applicationId" with
    | some a, some b => some (a, b)
    | _, _ => none
  | _ => none

/-- The failed paths reported in `validationResult.error.errors` (modelled by
their field names only; the issue objects' codes and messages are not needed
by any property). -/
def zodIssues (body : Json) : List String :=
  match body with
  | Json.obj _ =>
    (if (checkUuidField body "scanId").isNone then ["scanId"] else []) ++
    (if (checkUuidField body "applicationId").isNone then ["applicationId"] else [])
  | _ => ["body"]

/-- `authHeader.replace('Bearer ', '')`: JavaScript `String.replace` with a
string pattern removes only the first occurrence, anywhere in the string,
and leaves the input unchanged when the pattern does not occur. -/
def dropFirstOcc (pat : List Char) : List Char → List Char
  | [] => []
  | c :: cs =>
    if leadMatch pat (c :: cs) then (c :: cs).drop pat.length
    else c :: dropFirstOcc pat cs

def bearerToken (h : String) : String :=
  String.mk (dropFirstOcc "Bearer ".data h.data)

/-! ### The database

The three tables the handler touches, as lists of rows.  Fields that the
handler writes from parsed model output hold raw `Json` values (the hosted
store's column types and check constraints are part of the external
collaborator; a constraint rejection is one way a write can fail, and write
failure is modelled by the environment's per-statement outcome flags).
`none` in an `Option Json` column is SQL NULL / never written. -/

structure AppRow where
  id : String
  user_id : String
  name : String
  url : Option String
  description : Option String
  technology_stack : Option (List String)
  status : String
deriving Repr, DecidableEq

structure ScanRow where
  id : String
  application_id : String
  scan_type : String
  status : String
  overall_score : Option Json
  risk_level : Option Json
  vulnerabilities_found : Option Nat
  scan_duration : Option Nat
  started_at : Option Nat
  completed_at : Option Nat
deriving Repr, DecidableEq

structure VulnRow where
  scan_id : String
  severity : Option Json
  category : Option Json
  title : Option Json
  description : Option Json
  affected_component : Option Json
  cve_id : Option Json
  cvss_score : Option Json
  recommendation : Option Json
  code_snippet : Option Json
  status : String
deriving Repr, DecidableEq

structure DB where
  applications : List AppRow
  security_scans : List ScanRow
  vulnerabilities : List VulnRow
deriving Repr, DecidableEq

/-- `.update(...).eq(column, key)`: rewrite every matching row. -/
def updateWhere (p : α → Bool) (f : α → α) (l : List α) : List α :=
  l.map fun r => if p r then f r else r

/-- `.select(...).eq(column, key).single()`: the row if exactly one matches,
an error (`none`) otherwise. -/
def findSingle (p : α → Bool) (l : List α) : Option α :=
  match l.filter p with
  | [r] => some r
  | _ => none

def appRowOf (db : DB) (appId : String) : Option AppRow :=
  findSingle (fun a => a.id == appId) db.applications

def scanRowOf (db : DB) (scanId : String) : Option ScanRow :=
  findSingle (fun r => r.id == scanId) db.security_scans

def vulnCountFor (db : DB) (scanId : String) : Nat :=
  (db.vulnerabilities.filter (fun v => v.scan_id == scanId)).length

/-! ### Environment, request, response, write trace -/

/-- Everything the handler's single invocation observes from the outside
world: the auth backend's token resolution, the two wall-clock reads, the
completion API's outcome and message content, the generated correlation
identifier, the random draw behind the placeholder duration, and the
success/failure outcome of each of the five database writes (the handler
discards every write's error object, so a failed write only means the
affected table is left unchanged). -/
structure Env where
  userOf : String → Option String
  now1 : Nat
  now2 : Nat
  aiOk : Bool
  aiContent : String
  errorId : String
  rand : Nat
  okScanRunning : Bool
  okAppScanning : Bool
  okScanCompleted : Bool
  okVulnInsert : Bool
  okAppCompleted : Bool

/-- An inbound scan request (the CORS preflight branch is not modelled: every
`Request` here is a POST).  `body = none` models a request whose body is not
parseable JSON, so that `req.json()` rejects into the catch-all. -/
structure Request where
  authHeader : Option String
  body : Option Json

/-- The handler's JSON reply, by shape: success payload, plain error, the
validation error carrying issue details, or an error carrying a correlation
identifier. -/
inductive Resp where
  | ok (results : Json)
  | fail (status : Nat) (error : String)
  | failDetails (status : Nat) (error : String) (details : List String)
  | failId (status : Nat) (error : String) (errorId : String)
deriving Repr, DecidableEq

def Resp.statusCode : Resp → Nat
  | .ok _ => 200
  | .fail s _ => s
  | .failDetails s _ _ => s
  | .failId s _ _ => s

/-- One attempted database write, in program order.  An attempt is recorded
whether or not the store accepts it. -/
inductive DbOp where
  | updateScanRunning (scanId : String)
  | updateAppScanning (appId : String)
  | updateScanCompleted (scanId : String)
  | insertVulns (scanId : String) (count : Nat)
  | updateAppCompleted (appId : String)
deriving Repr, DecidableEq

/-! ### The handler -/

/-- The one error message surfaced for upstream or unexpected failures; the
real cause is only logged server-side. -/
def genericFailMsg : String := "Security scan failed. Please try again or contact support."

/-- The fixed fallback substituted when the model's output cannot be parsed:
score 50, risk "medium", one synthetic finding naming the application. -/
def fallbackVuln (appName : String) : Json :=
  Json.obj
    [("severity", Json.str "medium"),
     ("category", Json.str "Análise"),
     ("title", Json.str "Análise Incompleta"),
     ("description", Json.str "A análise não pode ser completada no formato esperado."),
     ("affected_component", Json.str appName),
     ("cve_id", Json.null),
     ("cvss_score", Json.null),
     ("recommendation", Json.str "Execute uma nova análise ou verifique manualmente."),
     ("code_snippet", Json.null)]

def fallbackResults (appName : String) : Json :=
  Json.obj
    [("overall_score", Json.num 50 0),
     ("risk_level", Json.str "medium"),
     ("vulnerabilities", Json.arr [fallbackVuln appName])]

/-- The value bound to `scanResults`: the parsed completion content, or the
fallback when the parse throws. -/
def aiResults (env : Env) (app : AppRow) : Json :=
  match parseAiContent env.aiContent with
  | some j => j
  | none => fallbackResults app.name

/-- One row of the vulnerability insert: each property is a JavaScript read
of the parsed finding (absent keys give `undefined`, modelled `none`). -/
def mkVulnRow (scanId : String) (v : Json) : VulnRow :=
  { scan_id := scanId
    severity := jget v "severity"
    category := jget v "category"
    title := jget v "title"
    description := jget v "description"
    affected_component := jget v "affected_component"
    cve_id := jget v "cve_id"
    cvss_score := jget v "cvss_score"
    recommendation := jget v "recommendation"
    code_snippet := jget v "code_snippet"
    status := "open" }

/-- The row rewrite of the `status: 'running', started_at: ...` update. -/
def runningF (env : Env) (r : ScanRow) : ScanRow :=
  { r with status := "running", started_at := some env.now1 }

/-- The `status: 'running', started_at: ...` update on `security_scans`. -/
def markScanRunning (env : Env) (scanId : String) (db : DB) : DB :=
  if env.okScanRunning then
    let scans := updateWhere (fun r => r.id == scanId) (runningF env) db.security_scans
    { db with security_scans := scans }
  else db

/-- A `status` update on `applications`. -/
def markAppStatus (flag : Bool) (appId st : String) (db : DB) : DB :=
  if flag then
    let apps :=
      updateWhere (fun a => a.id == appId) (fun a => { a with status := st }) db.applications
    { db with applications := apps }
  else db

/-- A column assignment coming from a JavaScript object literal: an
`undefined` property is dropped by the client's JSON serialization, so the
column keeps its old value; an explicit `null` writes SQL NULL. -/
def updField (newVal : Option Json) (old : Option Json) : Option Json :=
  match newVal with
  | none => old
  | some Json.null => none
  | some v => some v

/-- The terminal update of the scan row: status completed, score and risk
from the parsed results, the vulnerability count (`.length` of whatever the
results' `vulnerabilities` is — `none` when that read is `undefined`, in
which case the column is omitted), the placeholder duration and the
completion timestamp. -/
def scanCompletedUpdate (env : Env) (j : Json) (vf : Option Nat) (r : ScanRow) : ScanRow :=
  { r with
    status := "completed"
    overall_score := updField (jget j "overall_score") r.overall_score
    risk_level := updField (jget j "risk_level") r.risk_level
    vulnerabilities_found :=
      match vf with
      | some n => some n
      | none => r.vulnerabilities_found
    scan_duration := some (env.rand % 60 + 30)
    completed_at := some env.now2 }

def markScanCompleted (env : Env) (scanId : String) (j : Json) (vf : Option Nat) (db : DB) : DB :=
  if env.okScanCompleted then
    let scans :=
      updateWhere (fun r => r.id == scanId) (scanCompletedUpdate env j vf) db.security_scans
    { db with security_scans := scans }
  else db

def insertVulnRows (flag : Bool) (scanId : String) (vs : List Json) (db : DB) : DB :=
  if flag then
    { db with vulnerabilities := db.vulnerabilities ++ vs.map (mkVulnRow scanId) }
  else db

/-- The persistence phase and response, entered once the six preconditions
have passed and the completion call returned data whose content is
`scanResults` (parsed or fallback).  Mirrors the source line by line:

* `scanResults.vulnerabilities.length` throws into the catch-all when that
  property read gives `undefined` or `null`;
* otherwise the scan row is updated to completed (count = the `.length`
  value, with the column omitted when `.length` is `undefined`);
* the insert runs only when the property is truthy with positive length; a
  value that passes that test but is not an array (a nonempty string), or an
  array containing `null` (property reads in the `.map` callback throw),
  falls into the catch-all after the scan update;
* the application is marked completed and the success payload returned.

Other non-array shapes (numbers, booleans, objects, empty strings) fail the
length test, skip the insert and succeed, as in JavaScript. -/
def persistPhase (env : Env) (scanId applicationId : String) (scanResults : Json)
    (db2 : DB) (t2 : List DbOp) : Resp × DB × List DbOp :=
  match jget scanResults "vulnerabilities" with
  | none => (Resp.failId 500 genericFailMsg env.errorId, db2, t2)
  | some Json.null => (Resp.failId 500 genericFailMsg env.errorId, db2, t2)
  | some vjson =>
    let vf := jsLength vjson
    let db3 := markScanCompleted env scanId scanResults vf db2
    let t3 := t2 ++ [DbOp.updateScanCompleted scanId]
    if jsTruthy vjson && (match vf with | some l => decide (0 < l) | none => false) then
      match vjson with
      | Json.arr vs =>
        if vs.any (fun v => decide (v = Json.null)) then
          (Resp.failId 500 genericFailMsg env.errorId, db3, t3)
        else
          let db4 := insertVulnRows env.okVulnInsert scanId vs db3
          let t4 := t3 ++ [DbOp.insertVulns scanId vs.length]
          let db5 := markAppStatus env.okAppCompleted applicationId "completed" db4
          (Resp.ok scanResults, db5, t4 ++ [DbOp.updateAppCompleted applicationId])
      | _ => (Resp.failId 500 genericFailMsg env.errorId, db3, t3)
    else
      let db5 := markAppStatus env.okAppCompleted applicationId "completed" db3
      (Resp.ok scanResults, db5, t3 ++ [DbOp.updateAppCompleted applicationId])

/-- The scan request handler: credential checks, body validation, the scan
`running` update, application lookup and ownership check, scan-application
consistency check, application `scanning` update, the completion call, the
tolerant parse with fallback, and the persistence phase.  Returns the
response, the final database, and the writes attempted, in order.  The
outbound completion-API payload (the fixed two-message prompt) is input to
an external collaborator and is not observable in any verified property, so
its text is not reproduced here. -/
def handler (env : Env) (req : Request) (db : DB) : Resp × DB × List DbOp :=
  match req.authHeader with
  | none => (Resp.fail 401 "Authentication required", db, [])
  | some authHeader =>
    match env.userOf (bearerToken authHeader) with
    | none => (Resp.fail 401 "Invalid authentication token", db, [])
    | some userId =>
      match req.body with
      | none => (Resp.failId 500 genericFailMsg env.errorId, db, [])
      | some body =>
        match safeParseReq body with
        | none => (Resp.failDetails 400 "Invalid request parameters" (zodIssues body), db, [])
        | some (scanId, applicationId) =>
          let db1 := markScanRunning env scanId db
          let t1 := [DbOp.updateScanRunning scanId]
          match appRowOf db1 applicationId with
          | none => (Resp.fail 404 "Application not found", db1, t1)
          | some app =>
            if app.user_id == userId then
              match scanRowOf db1 scanId with
              | none => (Resp.fail 400 "Invalid scan request", db1, t1)
              | some scanRow =>
                if scanRow.application_id == applicationId then
                  let db2 := markAppStatus env.okAppScanning applicationId "scanning" db1
                  let t2 := t1 ++ [DbOp.updateAppScanning applicationId]
                  if env.aiOk then
                    persistPhase env scanId applicationId (aiResults env app) db2 t2
                  else
                    (Resp.failId 500 genericFailMsg env.errorId, db2, t2)
                else
                  (Resp.fail 400 "Invalid scan request", db1, t1)
            else
              (Resp.fail 403 "You do not have permission to scan this application", db1, t1)

/-! ### Concrete fixtures

A one-user, one-application, one-pending-scan store, and an environment in
which every external call succeeds; the claim theorems' witnesses and the
counterexamples instantiate these, varying one ingredient at a time. -/

def fixScanId : String := "11111111-1111-1111-1111-111111111111"

def fixAppId : String := "22222222-2222-2222-2222-222222222222"

def fixApp : AppRow :=
  { id := fixAppId, user_id := "user-1", name := "Demo App", url := none,
    description := none, technology_stack := none, status := "pending" }

def fixScan : ScanRow :=
  { id := fixScanId, application_id := fixAppId, scan_type := "full", status := "pending",
    overall_score := none, risk_level := none, vulnerabilities_found := some 0,
    scan_duration := none, started_at := none, completed_at := none }

def fixDB : DB :=
  { applications := [fixApp], security_scans := [fixScan], vulnerabilities := [] }

def fixBody : Json :=
  Json.obj [("scanId", Json.str fixScanId), ("applicationId", Json.str fixAppId)]

def fixReq : Request := { authHeader := some "Bearer tok", body := some fixBody }

/-- The completion content of the spec's fence example. -/
def fencedContent : String :=
  "```json\n\x7b\"overall_score\":10,\"risk_level\":\"high\",\"vulnerabilities\":[]\x7d\n```"

/-- The object embedded in `fencedContent`. -/
def fencedResults : Json :=
  Json.obj
    [("overall_score", Json.num 10 0), ("risk_level", Json.str "high"),
     ("vulnerabilities", Json.arr [])]

def fixEnv : Env :=
  { userOf := fun t => if t == "tok" then some "user-1" else none,
    now1 := 5, now2 := 9, aiOk := true, aiContent := fencedContent,
    errorId := "err-1", rand := 7,
    okScanRunning := true, okAppScanning := true, okScanCompleted := true,
    okVulnInsert := true, okAppCompleted := true }

/-- The environment with unparseable completion content. -/
def envBadParse : Env := { fixEnv with aiContent := "I cannot analyze this." }

/-- Unparseable completion content and a store that rejects the
vulnerability insert. -/
def envBadParseNoInsert : Env :=
  { fixEnv with aiContent := "I cannot analyze this.", okVulnInsert := false }

/-- The scan row as a completed earlier run leaves it. -/
def fixScanCompleted : ScanRow :=
  { fixScan with status := "completed", overall_score := some (Json.num 50 0), risk_level := some (Json.str "medium"), vulnerabilities_found := some 1, scan_duration := some 44, started_at := some 1, completed_at := some 3 }

/-- The store after a completed run: scan `completed`, application
`completed`, one vulnerability row already present for the scan. -/
def fixDBAfterRun : DB :=
  { applications := [{ fixApp with status := "completed" }],
    security_scans := [fixScanCompleted],
    vulnerabilities := [mkVulnRow fixScanId (fallbackVuln "Demo App")] }

/-! ### Helper lemmas about the store operations -/

theorem filter_updateWhere {α : Type} (p : α → Bool) (f : α → α)
    (hf : ∀ r, p (f r) = p r) (l : List α) :
    (updateWhere p f l).filter p = (l.filter p).map f := by
  induction l with
  | nil => rfl
  | cons a l ih =>
    by_cases h : p a
    · simp [updateWhere, List.filter, h, hf] at ih ⊢
      exact ih
    · simp only [Bool.not_eq_true] at h
      simp [updateWhere, List.filter, h, hf] at ih ⊢
      exact ih

theorem findSingle_updateWhere {α : Type} (p : α → Bool) (f : α → α)
    (hf : ∀ r, p (f r) = p r) (l : List α) :
    findSingle p (updateWhere p f l) = (findSingle p l).map f := by
  unfold findSingle
  rw [filter_updateWhere p f hf l]
  rcases l.filter p with _ | ⟨a, _ | ⟨b, t⟩⟩ <;> rfl

theorem markScanRunning_applications (env : Env) (s : String) (db : DB) :
    (markScanRunning env s db).applications = db.applications := by
  unfold markScanRunning; split <;> rfl

theorem markScanRunning_vulnerabilities (env : Env) (s : String) (db : DB) :
    (markScanRunning env s db).vulnerabilities = db.vulnerabilities := by
  unfold markScanRunning; split <;> rfl

theorem markAppStatus_security_scans (flag : Bool) (a st : String) (db : DB) :
    (markAppStatus flag a st db).security_scans = db.security_scans := by
  unfold markAppStatus; split <;> rfl

theorem markAppStatus_vulnerabilities (flag : Bool) (a st : String) (db : DB) :
    (markAppStatus flag a st db).vulnerabilities = db.vulnerabilities := by
  unfold markAppStatus; split <;> rfl

theorem markScanCompleted_applications (env : Env) (s : String) (j : Json)
    (vf : Option Nat) (db : DB) :
    (markScanCompleted env s j vf db).applications = db.applications := by
  unfold markScanCompleted; split <;> rfl

theorem markScanCompleted_vulnerabilities (env : Env) (s : String) (j : Json)
    (vf : Option Nat) (db : DB) :
    (markScanCompleted env s j vf db).vulnerabilities = db.vulnerabilities := by
  unfold markScanCompleted; split <;> rfl

theorem insertVulnRows_applications (flag : Bool) (s : String) (vs : List Json) (db : DB) :
    (insertVulnRows flag s vs db).applications = db.applications := by
  unfold insertVulnRows; split <;> rfl

theorem insertVulnRows_security_scans (flag : Bool) (s : String) (vs : List Json) (db : DB) :
    (insertVulnRows flag s vs db).security_scans = db.security_scans := by
  unfold insertVulnRows; split <;> rfl

theorem appRowOf_markScanRunning (env : Env) (s a : String) (db : DB) :
    appRowOf (markScanRunning env s db) a = appRowOf db a := by
  unfold appRowOf; rw [markScanRunning_applications]

theorem appRowOf_markScanCompleted (env : Env) (s : String) (j : Json)
    (vf : Option Nat) (a : String) (db : DB) :
    appRowOf (markScanCompleted env s j vf db) a = appRowOf db a := by
  unfold appRowOf; rw [markScanCompleted_applications]

theorem appRowOf_insertVulnRows (flag : Bool) (s : String) (vs : List Json)
    (a : String) (db : DB) :
    appRowOf (insertVulnRows flag s vs db) a = appRowOf db a := by
  unfold appRowOf; rw [insertVulnRows_applications]

theorem scanRowOf_markAppStatus (flag : Bool) (a st s : String) (db : DB) :
    scanRowOf (markAppStatus flag a st db) s = scanRowOf db s := by
  unfold scanRowOf; rw [markAppStatus_security_scans]

theorem scanRowOf_insertVulnRows (flag : Bool) (s' : String) (vs : List Json)
    (s : String) (db : DB) :
    scanRowOf (insertVulnRows flag s' vs db) s = scanRowOf db s := by
  unfold scanRowOf; rw [insertVulnRows_security_scans]

theorem vulnCountFor_markScanRunning (env : Env) (s' s : String) (db : DB) :
    vulnCountFor (markScanRunning env s' db) s = vulnCountFor db s := by
  unfold vulnCountFor; rw [markScanRunning_vulnerabilities]

theorem vulnCountFor_markAppStatus (flag : Bool) (a st s : String) (db : DB) :
    vulnCountFor (markAppStatus flag a st db) s = vulnCountFor db s := by
  unfold vulnCountFor; rw [markAppStatus_vulnerabilities]

theorem vulnCountFor_markScanCompleted (env : Env) (s' : String) (j : Json)
    (vf : Option Nat) (s : String) (db : DB) :
    vulnCountFor (markScanCompleted env s' j vf db) s = vulnCountFor db s := by
  unfold vulnCountFor; rw [markScanCompleted_vulnerabilities]

theorem scanRowOf_markScanRunning (env : Env) (s : String) (db : DB) :
    scanRowOf (markScanRunning env s db) s =
      (scanRowOf db s).map (fun r => if env.okScanRunning then runningF env r else r) := by
  unfold markScanRunning scanRowOf
  by_cases h : env.okScanRunning = true
  · rw [if_pos h]
    simp only [h, if_true]
    exact findSingle_updateWhere (fun r => r.id == s) (runningF env) (fun r => rfl)
      db.security_scans
  · rw [if_neg h]
    simp [eq_false_of_ne_true h]

theorem scanRowOf_markScanCompleted (env : Env) (s : String) (j : Json)
    (vf : Option Nat) (db : DB) :
    scanRowOf (markScanCompleted env s j vf db) s =
      (scanRowOf db s).map
        (fun r => if env.okScanCompleted then scanCompletedUpdate env j vf r else r) := by
  unfold markScanCompleted scanRowOf
  by_cases h : env.okScanCompleted = true
  · rw [if_pos h]
    simp only [h, if_true]
    exact findSingle_updateWhere (fun r => r.id == s) (scanCompletedUpdate env j vf)
      (fun r => rfl) db.security_scans
  · rw [if_neg h]
    simp [eq_false_of_ne_true h]

theorem appRowOf_markAppStatus (flag : Bool) (a st : String) (db : DB) :
    appRowOf (markAppStatus flag a st db) a =
      (appRowOf db a).map (fun r => if flag then { r with status := st } else r) := by
  unfold markAppStatus appRowOf
  by_cases h : flag = true
  · rw [if_pos h]
    simp only [h, if_true]
    exact findSingle_updateWhere (fun r => r.id == a) (fun r => { r with status := st })
      (fun r => rfl) db.applications
  · rw [if_neg h]
    simp [eq_false_of_ne_true h]

theorem vulnCountFor_insertVulnRows (flag : Bool) (s : String) (vs : List Json) (db : DB) :
    vulnCountFor (insertVulnRows flag s vs db) s =
      vulnCountFor db s + (if flag then vs.length else 0) := by
  unfold insertVulnRows vulnCountFor
  by_cases h : flag
  · simp only [h, if_true, List.filter_append, List.length_append, Nat.add_left_cancel_iff]
    have hall : (vs.map (mkVulnRow s)).filter (fun v => v.scan_id == s) = vs.map (mkVulnRow s) := by
      apply List.filter_eq_self.mpr
      intro a ha
      rcases List.mem_map.mp ha with ⟨v, _, rfl⟩
      simp [mkVulnRow]
    rw [hall, List.length_map]
  · simp [eq_false_of_ne_true h]

/-! ### Characterizations of the phases of a run -/

theorem persistPhase_arr_pos (env : Env) (scanId appId : String) (j : Json)
    (vs : List Json) (db2 : DB) (t2 : List DbOp)
    (hv : jget j "vulnerabilities" = some (Json.arr vs))
    (hne : vs ≠ []) (hnn : Json.null ∉ vs) :
    persistPhase env scanId appId j db2 t2 =
      (Resp.ok j,
       markAppStatus env.okAppCompleted appId "completed"
         (insertVulnRows env.okVulnInsert scanId vs
           (markScanCompleted env scanId j (some vs.length) db2)),
       t2 ++ [DbOp.updateScanCompleted scanId, DbOp.insertVulns scanId vs.length,
              DbOp.updateAppCompleted appId]) := by
  unfold persistPhase
  rw [hv]
  have hlen : (match jsLength (Json.arr vs) with
      | some l => decide (0 < l)
      | none => false) = true := by
    simp [jsLength, List.length_pos, hne]
  have hany : vs.any (fun v => decide (v = Json.null)) = false := by
    rw [List.any_eq_false]
    intro v hvmem
    simp only [decide_eq_true_eq]
    intro hcontra
    exact hnn (hcontra ▸ hvmem)
  simp [jsTruthy, hlen, hany, jsLength, hne]

theorem persistPhase_arr_nil (env : Env) (scanId appId : String) (j : Json)
    (db2 : DB) (t2 : List DbOp)
    (hv : jget j "vulnerabilities" = some (Json.arr [])) :
    persistPhase env scanId appId j db2 t2 =
      (Resp.ok j,
       markAppStatus env.okAppCompleted appId "completed"
         (markScanCompleted env scanId j (some 0) db2),
       t2 ++ [DbOp.updateScanCompleted scanId, DbOp.updateAppCompleted appId]) := by
  unfold persistPhase
  rw [hv]
  simp [jsTruthy, jsLength]

/-- Whatever the parsed results look like, the persistence phase only ever
appends to the trace it is given, so the first attempted write of the run is
unchanged by it. -/
theorem persistPhase_trace_head (env : Env) (scanId appId : String) (j : Json)
    (db2 : DB) (a : DbOp) (t : List DbOp) :
    (persistPhase env scanId appId j db2 (a :: t)).2.2.head? = some a := by
  unfold persistPhase
  rcases hj : jget j "vulnerabilities" with _ | vj
  · rfl
  · rcases vj <;> dsimp only <;>
      first
        | rfl
        | (split <;> first | rfl | (split <;> rfl))

/-- A run that passes the first three preconditions (credential present,
credential resolved, body valid) but whose application lookup, ownership
check or scan lookup has not yet been inspected: the common prefix up to the
scan-running write. -/
theorem handler_entry (env : Env) (req : Request) (db : DB)
    (ah userId : String) (body : Json) (scanId appId : String)
    (hah : req.authHeader = some ah)
    (huser : env.userOf (bearerToken ah) = some userId)
    (hbody : req.body = some body)
    (hparse : safeParseReq body = some (scanId, appId)) :
    handler env req db =
      (match appRowOf (markScanRunning env scanId db) appId with
       | none => (Resp.fail 404 "Application not found", markScanRunning env scanId db,
                  [DbOp.updateScanRunning scanId])
       | some app =>
         if app.user_id == userId then
           match scanRowOf (markScanRunning env scanId db) scanId with
           | none => (Resp.fail 400 "Invalid scan request", markScanRunning env scanId db,
                      [DbOp.updateScanRunning scanId])
           | some scanRow =>
             if scanRow.application_id == appId then
               if env.aiOk then
                 persistPhase env scanId appId (aiResults env app)
                   (markAppStatus env.okAppScanning appId "scanning"
                     (markScanRunning env scanId db))
                   [DbOp.updateScanRunning scanId, DbOp.updateAppScanning appId]
               else
                 (Resp.failId 500 genericFailMsg env.errorId,
                  markAppStatus env.okAppScanning appId "scanning"
                    (markScanRunning env scanId db),
                  [DbOp.updateScanRunning scanId, DbOp.updateAppScanning appId])
             else
               (Resp.fail 400 "Invalid scan request", markScanRunning env scanId db,
                [DbOp.updateScanRunning scanId])
         else
           (Resp.fail 403 "You do not have permission to scan this application",
            markScanRunning env scanId db, [DbOp.updateScanRunning scanId])) := by
  unfold handler
  simp only [hah, huser, hbody, hparse]
  rfl

/-- A run in which all six preconditions pass, reduced to the branch on the
completion call's outcome. -/
theorem handler_ready (env : Env) (req : Request) (db : DB)
    (ah userId : String) (body : Json) (scanId appId : String)
    (app : AppRow) (scan : ScanRow)
    (hah : req.authHeader = some ah)
    (huser : env.userOf (bearerToken ah) = some userId)
    (hbody : req.body = some body)
    (hparse : safeParseReq body = some (scanId, appId))
    (happ : appRowOf db appId = some app)
    (howner : app.user_id = userId)
    (hscan : scanRowOf db scanId = some scan)
    (hcons : scan.application_id = appId) :
    handler env req db =
      (if env.aiOk then
         persistPhase env scanId appId (aiResults env app)
           (markAppStatus env.okAppScanning appId "scanning" (markScanRunning env scanId db))
           [DbOp.updateScanRunning scanId, DbOp.updateAppScanning appId]
       else
         (Resp.failId 500 genericFailMsg env.errorId,
          markAppStatus env.okAppScanning appId "scanning" (markScanRunning env scanId db),
          [DbOp.updateScanRunning scanId, DbOp.updateAppScanning appId])) := by
  rw [handler_entry env req db ah userId body scanId appId hah huser hbody hparse,
    appRowOf_markScanRunning, scanRowOf_markScanRunning]
  have happid : ∀ r : ScanRow,
      (if env.okScanRunning then runningF env r else r).application_id = r.application_id := by
    intro r
    by_cases h : env.okScanRunning = true <;> simp [h, runningF]
  simp [happ, hscan, howner, hcons, happid]

/-! ### The claims -/

/-- C3: for every request with a missing credential header, or one whose
token the auth backend does not resolve to a user, the handler answers 401,
leaves all three tables unchanged and attempts no write. -/
theorem C3_unauthenticated_401_no_writes (env : Env) (req : Request) (db : DB)
    (hbad : req.authHeader = none ∨
      ∃ ah, req.authHeader = some ah ∧ env.userOf (bearerToken ah) = none) :
    (handler env req db).1.statusCode = 401 ∧
    (handler env req db).2.1 = db ∧
    (handler env req db).2.2 = [] := by
  rcases hbad with h | ⟨ah, hah, hu⟩
  · refine ⟨?_, ?_, ?_⟩ <;> simp [handler, h, Resp.statusCode]
  · refine ⟨?_, ?_, ?_⟩ <;> simp [handler, hah, hu, Resp.statusCode]

theorem C3_unauthenticated_401_no_writes_witness :
    (handler fixEnv { fixReq with authHeader := none } fixDB).1.statusCode = 401 ∧
    (handler fixEnv { fixReq with authHeader := none } fixDB).2.1 = fixDB ∧
    (handler fixEnv { fixReq with authHeader := none } fixDB).2.2 = [] :=
  C3_unauthenticated_401_no_writes fixEnv { fixReq with authHeader := none } fixDB (Or.inl rfl)

/-- C2 counterexample: a request that passes the credential and body checks
but names an application that does not exist — precondition 4 fails, yet the
handler has already performed a database side effect: the trace shows the
scan-running write, and the scan row is left `running` with a start stamp.
The claim that no side effect happens until all six preconditions pass is
therefore false. -/
theorem C2_counterexample :
    (handler fixEnv fixReq { fixDB with applications := [] }).1 =
      Resp.fail 404 "Application not found" ∧
    (handler fixEnv fixReq { fixDB with applications := [] }).2.2 =
      [DbOp.updateScanRunning fixScanId] ∧
    scanRowOf (handler fixEnv fixReq { fixDB with applications := [] }).2.1 fixScanId =
      some { fixScan with status := "running", started_at := some 5 } := by
  refine ⟨by decide, by decide, by decide⟩

/-- C2 (amended): the handler performs no database side effect until the
first three preconditions (credential present, credential resolves to a
user, body well-formed) have passed — any run that attempts a write has
passed them; the scan-running write is then issued before preconditions 4–6
(application exists, ownership, scan-application consistency) are checked. -/
theorem C2_writes_only_after_auth_and_valid_body (env : Env) (req : Request) (db : DB)
    (hw : (handler env req db).2.2 ≠ []) :
    ∃ ah userId body ids,
      req.authHeader = some ah ∧
      env.userOf (bearerToken ah) = some userId ∧
      req.body = some body ∧
      safeParseReq body = some ids ∧
      (handler env req db).2.2.head? = some (DbOp.updateScanRunning ids.1) := by
  cases hA : req.authHeader with
  | none =>
    exfalso
    apply hw
    unfold handler
    rw [hA]
  | some ah =>
    cases hU : env.userOf (bearerToken ah) with
    | none =>
      exfalso
      apply hw
      unfold handler
      simp only [hA, hU]
    | some uid =>
      cases hB : req.body with
      | none =>
        exfalso
        apply hw
        unfold handler
        simp only [hA, hU, hB]
      | some body =>
        cases hP : safeParseReq body with
        | none =>
          exfalso
          apply hw
          unfold handler
          simp only [hA, hU, hB, hP]
        | some ids =>
          refine ⟨ah, uid, body, ids, rfl, hU, rfl, hP, ?_⟩
          obtain ⟨scanId, appId⟩ := ids
          rw [handler_entry env req db ah uid body scanId appId hA hU hB hP]
          rcases happ : appRowOf (markScanRunning env scanId db) appId with _ | app
          · rfl
          · by_cases howner : (app.user_id == uid) = true
            · simp only [howner, if_true]
              rcases hscan : scanRowOf (markScanRunning env scanId db) scanId with _ | scanRow
              · rfl
              · by_cases hcons : (scanRow.application_id == appId) = true
                · simp only [hcons, if_true]
                  by_cases hai : env.aiOk = true
                  · simp only [hai, if_true]
                    exact persistPhase_trace_head env scanId appId (aiResults env app) _
                      (DbOp.updateScanRunning scanId) [DbOp.updateAppScanning appId]
                  · simp only [hai, if_false, eq_false_of_ne_true hai]
                    rfl
                · simp only [hcons, if_false]
                  rfl
            · simp only [howner, if_false]
              rfl

theorem C2_writes_only_after_auth_and_valid_body_witness :
    ∃ ah userId body ids,
      fixReq.authHeader = some ah ∧
      fixEnv.userOf (bearerToken ah) = some userId ∧
      fixReq.body = some body ∧
      safeParseReq body = some ids ∧
      (handler fixEnv fixReq { fixDB with applications := [] }).2.2.head? =
        some (DbOp.updateScanRunning ids.1) :=
  C2_writes_only_after_auth_and_valid_body fixEnv fixReq { fixDB with applications := [] }
    (by decide)

/-- C9 counterexample: an authenticated request whose JSON body carries a
third field besides the two identifiers — so it does not consist of exactly
two well-formed identifiers — is not rejected with a validation error: the
schema strips the extra field, the run proceeds and succeeds (status 200),
after performing writes. -/
theorem C9_counterexample :
    (handler fixEnv
      { fixReq with body := some (Json.obj
          [("scanId", Json.str fixScanId), ("applicationId", Json.str fixAppId),
           ("note", Json.str "extra")]) } fixDB).1.statusCode = 200 ∧
    (handler fixEnv
      { fixReq with body := some (Json.obj
          [("scanId", Json.str fixScanId), ("applicationId", Json.str fixAppId),
           ("note", Json.str "extra")]) } fixDB).2.2 ≠ [] := by
  refine ⟨by decide, by decide⟩

/-- C9 (amended): for every authenticated request whose body fails the
schema — `scanId` or `applicationId` missing, not a string, or not a
well-formed UUID — the handler rejects it with status 400, attaching the
violated fields, before performing any write; a body carrying additional
fields beyond the two is not rejected (the extras are stripped). -/
theorem C9_invalid_body_400_no_writes (env : Env) (req : Request) (db : DB)
    (ah userId : String) (body : Json)
    (hah : req.authHeader = some ah)
    (huser : env.userOf (bearerToken ah) = some userId)
    (hbody : req.body = some body)
    (hbad : safeParseReq body = none) :
    handler env req db =
      (Resp.failDetails 400 "Invalid request parameters" (zodIssues body), db, []) := by
  unfold handler
  simp only [hah, huser, hbody, hbad]

theorem C9_invalid_body_400_no_writes_witness :
    handler fixEnv { fixReq with body := some (Json.obj [("scanId", Json.str "not-a-uuid")]) }
        fixDB =
      (Resp.failDetails 400 "Invalid request parameters"
        (zodIssues (Json.obj [("scanId", Json.str "not-a-uuid")])), fixDB, []) :=
  C9_invalid_body_400_no_writes fixEnv _ fixDB "Bearer tok" "user-1"
    (Json.obj [("scanId", Json.str "not-a-uuid")]) rfl (by decide) rfl (by decide)

/-- C4 counterexample: a scanId that exists but whose stored application
reference is a different application — the handler does return 400, but it
has already mutated the scan's status: the row is `running` (it was
`pending`), so "performs no scan status mutation" is false. -/
theorem C4_counterexample :
    (handler fixEnv fixReq
      { fixDB with security_scans :=
          [{ fixScan with application_id := "33333333-3333-3333-3333-333333333333" }] }).1 =
      Resp.fail 400 "Invalid scan request" ∧
    (scanRowOf (handler fixEnv fixReq
      { fixDB with security_scans :=
          [{ fixScan with application_id := "33333333-3333-3333-3333-333333333333" }] }).2.1
        fixScanId).map ScanRow.status = some "running" := by
  refine ⟨by decide, by decide⟩

/-- C4 (amended): for a scanId whose stored application reference differs
from the supplied applicationId, the handler returns 400 (`Invalid scan
request`) and performs no application status mutation and no further write —
but the scan has already been marked `running` with a start stamp, the one
write in the trace. -/
theorem C4_scan_mismatch_400 (env : Env) (req : Request) (db : DB)
    (ah userId : String) (body : Json) (scanId appId : String)
    (app : AppRow) (scan : ScanRow)
    (hah : req.authHeader = some ah)
    (huser : env.userOf (bearerToken ah) = some userId)
    (hbody : req.body = some body)
    (hparse : safeParseReq body = some (scanId, appId))
    (happ : appRowOf db appId = some app)
    (howner : app.user_id = userId)
    (hscan : scanRowOf db scanId = some scan)
    (hmis : scan.application_id ≠ appId) :
    handler env req db =
      (Resp.fail 400 "Invalid scan request", markScanRunning env scanId db,
       [DbOp.updateScanRunning scanId]) ∧
    (handler env req db).2.1.applications = db.applications := by
  have happid : ∀ r : ScanRow,
      (if env.okScanRunning then runningF env r else r).application_id = r.application_id := by
    intro r
    by_cases h : env.okScanRunning = true <;> simp [h, runningF]
  have h1 : handler env req db =
      (Resp.fail 400 "Invalid scan request", markScanRunning env scanId db,
       [DbOp.updateScanRunning scanId]) := by
    rw [handler_entry env req db ah userId body scanId appId hah huser hbody hparse,
      appRowOf_markScanRunning, scanRowOf_markScanRunning]
    simp [happ, hscan, howner, happid, hmis]
  exact ⟨h1, by rw [h1]; exact markScanRunning_applications env scanId db⟩

theorem C4_scan_mismatch_400_witness :
    handler fixEnv fixReq
        { fixDB with security_scans :=
            [{ fixScan with application_id := "33333333-3333-3333-3333-333333333333" }] } =
      (Resp.fail 400 "Invalid scan request",
       markScanRunning fixEnv fixScanId
         { fixDB with security_scans :=
             [{ fixScan with application_id := "33333333-3333-3333-3333-333333333333" }] },
       [DbOp.updateScanRunning fixScanId]) ∧
    (handler fixEnv fixReq
      { fixDB with security_scans :=
          [{ fixScan with application_id := "33333333-3333-3333-3333-333333333333" }] }).2.1.applications =
      [fixApp] :=
  C4_scan_mismatch_400 fixEnv fixReq _ "Bearer tok" "user-1" fixBody fixScanId fixAppId
    fixApp { fixScan with application_id := "33333333-3333-3333-3333-333333333333" }
    rfl (by decide) rfl (by decide) (by decide) rfl (by decide) (by decide)

/-- C7: when the six preconditions pass but the completion call returns a
non-success status, the handler aborts with status 500 carrying only the
generic message and the correlation identifier (no upstream diagnostic text
appears anywhere in the response), and the scan and application rows are
left exactly in the `running` / `scanning` states written before the call —
the trace shows no compensating write. -/
theorem C7_ai_failure_generic_500 (env : Env) (req : Request) (db : DB)
    (ah userId : String) (body : Json) (scanId appId : String)
    (app : AppRow) (scan : ScanRow)
    (hah : req.authHeader = some ah)
    (huser : env.userOf (bearerToken ah) = some userId)
    (hbody : req.body = some body)
    (hparse : safeParseReq body = some (scanId, appId))
    (happ : appRowOf db appId = some app)
    (howner : app.user_id = userId)
    (hscan : scanRowOf db scanId = some scan)
    (hcons : scan.application_id = appId)
    (hRun : env.okScanRunning = true)
    (hScn : env.okAppScanning = true)
    (hai : env.aiOk = false) :
    handler env req db =
      (Resp.failId 500 genericFailMsg env.errorId,
       markAppStatus env.okAppScanning appId "scanning" (markScanRunning env scanId db),
       [DbOp.updateScanRunning scanId, DbOp.updateAppScanning appId]) ∧
    scanRowOf (handler env req db).2.1 scanId = some (runningF env scan) ∧
    appRowOf (handler env req db).2.1 appId = some { app with status := "scanning" } := by
  have h1 : handler env req db =
      (Resp.failId 500 genericFailMsg env.errorId,
       markAppStatus env.okAppScanning appId "scanning" (markScanRunning env scanId db),
       [DbOp.updateScanRunning scanId, DbOp.updateAppScanning appId]) := by
    rw [handler_ready env req db ah userId body scanId appId app scan
      hah huser hbody hparse happ howner hscan hcons]
    simp [hai]
  refine ⟨h1, ?_, ?_⟩
  · rw [h1]
    show scanRowOf (markAppStatus env.okAppScanning appId "scanning"
      (markScanRunning env scanId db)) scanId = some (runningF env scan)
    rw [scanRowOf_markAppStatus, scanRowOf_markScanRunning, hscan]
    simp [hRun]
  · rw [h1]
    show appRowOf (markAppStatus env.okAppScanning appId "scanning"
      (markScanRunning env scanId db)) appId = some { app with status := "scanning" }
    rw [appRowOf_markAppStatus, appRowOf_markScanRunning, happ]
    simp [hScn]

theorem C7_ai_failure_generic_500_witness :
    handler { fixEnv with aiOk := false } fixReq fixDB =
      (Resp.failId 500 genericFailMsg "err-1",
       markAppStatus true fixAppId "scanning"
         (markScanRunning { fixEnv with aiOk := false } fixScanId fixDB),
       [DbOp.updateScanRunning fixScanId, DbOp.updateAppScanning fixAppId]) ∧
    scanRowOf (handler { fixEnv with aiOk := false } fixReq fixDB).2.1 fixScanId =
      some (runningF { fixEnv with aiOk := false } fixScan) ∧
    appRowOf (handler { fixEnv with aiOk := false } fixReq fixDB).2.1 fixAppId =
      some { fixApp with status := "scanning" } :=
  C7_ai_failure_generic_500 { fixEnv with aiOk := false } fixReq fixDB "Bearer tok" "user-1"
    fixBody fixScanId fixAppId fixApp fixScan rfl (by decide) rfl (by decide) (by decide)
    rfl (by decide) rfl rfl rfl rfl

/-- C5: whenever the completion call succeeds but its message content does
not parse as JSON after fence stripping, the handler substitutes the fixed
fallback — overall score 50, risk level "medium", and exactly one synthetic
vulnerability entry naming the application — and still returns the success
payload built from it. -/
theorem C5_parse_failure_fallback (env : Env) (req : Request) (db : DB)
    (ah userId : String) (body : Json) (scanId appId : String)
    (app : AppRow) (scan : ScanRow)
    (hah : req.authHeader = some ah)
    (huser : env.userOf (bearerToken ah) = some userId)
    (hbody : req.body = some body)
    (hparse : safeParseReq body = some (scanId, appId))
    (happ : appRowOf db appId = some app)
    (howner : app.user_id = userId)
    (hscan : scanRowOf db scanId = some scan)
    (hcons : scan.application_id = appId)
    (hai : env.aiOk = true)
    (hbadParse : parseAiContent env.aiContent = none) :
    (handler env req db).1 = Resp.ok (fallbackResults app.name) ∧
    jget (fallbackResults app.name) "overall_score" = some (Json.num 50 0) ∧
    jget (fallbackResults app.name) "risk_level" = some (Json.str "medium") ∧
    jget (fallbackResults app.name) "vulnerabilities" =
      some (Json.arr [fallbackVuln app.name]) := by
  have hres : aiResults env app = fallbackResults app.name := by
    unfold aiResults
    rw [hbadParse]
  have hv : jget (fallbackResults app.name) "vulnerabilities" =
      some (Json.arr [fallbackVuln app.name]) := by
    simp [fallbackResults, jget, jgetFields]
  refine ⟨?_, by simp [fallbackResults, jget, jgetFields],
    by simp [fallbackResults, jget, jgetFields], hv⟩
  rw [handler_ready env req db ah userId body scanId appId app scan
    hah huser hbody hparse happ howner hscan hcons]
  simp only [hai, if_true]
  rw [hres, persistPhase_arr_pos env scanId appId (fallbackResults app.name)
    [fallbackVuln app.name] _ _ hv (by simp) (by simp [fallbackVuln])]

theorem C5_parse_failure_fallback_witness :
    (handler { fixEnv with aiContent := "I cannot analyze this." } fixReq fixDB).1 =
      Resp.ok (fallbackResults fixApp.name) ∧
    jget (fallbackResults fixApp.name) "overall_score" = some (Json.num 50 0) ∧
    jget (fallbackResults fixApp.name) "risk_level" = some (Json.str "medium") ∧
    jget (fallbackResults fixApp.name) "vulnerabilities" =
      some (Json.arr [fallbackVuln fixApp.name]) :=
  C5_parse_failure_fallback { fixEnv with aiContent := "I cannot analyze this." } fixReq fixDB
    "Bearer tok" "user-1" fixBody fixScanId fixAppId fixApp fixScan rfl (by decide) rfl
    (by decide) (by decide) rfl (by decide) rfl rfl (by decide)

/-- C6: the extraction prefers a fence tagged `json`, then any fence, then
the raw text; on the spec's concrete content — the embedded object behind
`json`-tagged triple-backtick fences — the parser yields exactly that
object, the handler returns it as the success payload, and the scan row is
completed with its score 10, risk level "high" and a vulnerability count of
zero, ignoring the fence markers. -/
theorem C6_fenced_json_used (env : Env) (req : Request) (db : DB)
    (ah userId : String) (body : Json) (scanId appId : String)
    (app : AppRow) (scan : ScanRow)
    (hah : req.authHeader = some ah)
    (huser : env.userOf (bearerToken ah) = some userId)
    (hbody : req.body = some body)
    (hparse : safeParseReq body = some (scanId, appId))
    (happ : appRowOf db appId = some app)
    (howner : app.user_id = userId)
    (hscan : scanRowOf db scanId = some scan)
    (hcons : scan.application_id = appId)
    (hai : env.aiOk = true)
    (hcontent : env.aiContent = fencedContent)
    (hC : env.okScanCompleted = true) :
    parseAiContent fencedContent = some fencedResults ∧
    findFence "```json".data fencedContent.data =
      some "\x7b\"overall_score\":10,\"risk_level\":\"high\",\"vulnerabilities\":[]\x7d".data ∧
    (handler env req db).1 = Resp.ok fencedResults ∧
    (scanRowOf (handler env req db).2.1 scanId).map ScanRow.status = some "completed" ∧
    (scanRowOf (handler env req db).2.1 scanId).map ScanRow.overall_score =
      some (some (Json.num 10 0)) ∧
    (scanRowOf (handler env req db).2.1 scanId).map ScanRow.risk_level =
      some (some (Json.str "high")) ∧
    (scanRowOf (handler env req db).2.1 scanId).map ScanRow.vulnerabilities_found =
      some (some 0) := by
  have hpc : parseAiContent fencedContent = some fencedResults := by decide
  have hres : aiResults env app = fencedResults := by
    unfold aiResults
    rw [hcontent, hpc]
  have hv : jget fencedResults "vulnerabilities" = some (Json.arr []) := by decide
  have h1 : handler env req db =
      (Resp.ok fencedResults,
       markAppStatus env.okAppCompleted appId "completed"
         (markScanCompleted env scanId fencedResults (some 0)
           (markAppStatus env.okAppScanning appId "scanning" (markScanRunning env scanId db))),
       [DbOp.updateScanRunning scanId, DbOp.updateAppScanning appId,
        DbOp.updateScanCompleted scanId, DbOp.updateAppCompleted appId]) := by
    rw [handler_ready env req db ah userId body scanId appId app scan
      hah huser hbody hparse happ howner hscan hcons]
    simp only [hai, if_true]
    rw [hres, persistPhase_arr_nil env scanId appId fencedResults _ _ hv]
    simp
  have hrow : scanRowOf (handler env req db).2.1 scanId =
      some (scanCompletedUpdate env fencedResults (some 0)
        (if env.okScanRunning then runningF env scan else scan)) := by
    rw [h1]
    show scanRowOf (markAppStatus env.okAppCompleted appId "completed"
      (markScanCompleted env scanId fencedResults (some 0)
        (markAppStatus env.okAppScanning appId "scanning"
          (markScanRunning env scanId db)))) scanId = _
    rw [scanRowOf_markAppStatus, scanRowOf_markScanCompleted, scanRowOf_markAppStatus,
      scanRowOf_markScanRunning, hscan]
    simp [hC]
  have ho : jget fencedResults "overall_score" = some (Json.num 10 0) := by decide
  have hr : jget fencedResults "risk_level" = some (Json.str "high") := by decide
  refine ⟨hpc, by decide, by rw [h1], ?_, ?_, ?_, ?_⟩ <;>
    rw [hrow] <;>
    simp [scanCompletedUpdate, updField, ho, hr]

theorem C6_fenced_json_used_witness :
    parseAiContent fencedContent = some fencedResults ∧
    findFence "```json".data fencedContent.data =
      some "\x7b\"overall_score\":10,\"risk_level\":\"high\",\"vulnerabilities\":[]\x7d".data ∧
    (handler fixEnv fixReq fixDB).1 = Resp.ok fencedResults ∧
    (scanRowOf (handler fixEnv fixReq fixDB).2.1 fixScanId).map ScanRow.status =
      some "completed" ∧
    (scanRowOf (handler fixEnv fixReq fixDB).2.1 fixScanId).map ScanRow.overall_score =
      some (some (Json.num 10 0)) ∧
    (scanRowOf (handler fixEnv fixReq fixDB).2.1 fixScanId).map ScanRow.risk_level =
      some (some (Json.str "high")) ∧
    (scanRowOf (handler fixEnv fixReq fixDB).2.1 fixScanId).map ScanRow.vulnerabilities_found =
      some (some 0) :=
  C6_fenced_json_used fixEnv fixReq fixDB "Bearer tok" "user-1" fixBody fixScanId fixAppId
    fixApp fixScan rfl (by decide) rfl (by decide) (by decide) rfl (by decide) rfl rfl rfl rfl

/-- The two array cases of the persistence phase, unified: the scan row is
completed with the list's length, the insert happens exactly when the list
is nonempty and the store accepted it, and the success payload is returned
either way. -/
theorem persistPhase_arr (env : Env) (scanId appId : String) (j : Json)
    (vs : List Json) (db2 : DB) (t2 : List DbOp)
    (hv : jget j "vulnerabilities" = some (Json.arr vs))
    (hnn : Json.null ∉ vs) :
    persistPhase env scanId appId j db2 t2 =
      (Resp.ok j,
       markAppStatus env.okAppCompleted appId "completed"
         (insertVulnRows (env.okVulnInsert && !vs.isEmpty) scanId vs
           (markScanCompleted env scanId j (some vs.length) db2)),
       t2 ++ [DbOp.updateScanCompleted scanId] ++
         (if vs.isEmpty then [] else [DbOp.insertVulns scanId vs.length]) ++
         [DbOp.updateAppCompleted appId]) := by
  cases vs with
  | nil =>
    rw [persistPhase_arr_nil env scanId appId j db2 t2 hv]
    simp [insertVulnRows]
  | cons v0 vrest =>
    rw [persistPhase_arr_pos env scanId appId j (v0 :: vrest) db2 t2 hv (by simp) hnn]
    simp

/-- C1 counterexample: a successful invocation (unparseable model output, so
the fallback's single finding is used) in which the store rejects the
vulnerability insert — whose error the handler discards.  The scan row ends
with `vulnerabilities_found = 1` although zero vulnerability rows exist for
the scan, so the claimed invariant fails under partial persistence failure.
-/
theorem C1_counterexample :
    (handler envBadParseNoInsert fixReq fixDB).1 = Resp.ok (fallbackResults "Demo App") ∧
    (scanRowOf (handler envBadParseNoInsert fixReq fixDB).2.1
      fixScanId).map ScanRow.vulnerabilities_found =
      some (some 1) ∧
    vulnCountFor (handler envBadParseNoInsert fixReq fixDB).2.1 fixScanId = 0 := by
  refine ⟨by decide, by decide, by decide⟩

/-- C1 (amended): on every successful invocation the scan row's
`vulnerabilities_found` equals the length of the parsed (or fallback)
vulnerability list; the number of vulnerability rows actually inserted
equals that length only when the store accepts the insert — when the insert
fails (its error is discarded) no rows are added and the two quantities
diverge, so the handler does not keep them consistent under partial
persistence failure. -/
theorem C1_count_is_list_length_not_rows (env : Env) (req : Request) (db : DB)
    (ah userId : String) (body : Json) (scanId appId : String)
    (app : AppRow) (scan : ScanRow) (j : Json) (vs : List Json)
    (hah : req.authHeader = some ah)
    (huser : env.userOf (bearerToken ah) = some userId)
    (hbody : req.body = some body)
    (hparse : safeParseReq body = some (scanId, appId))
    (happ : appRowOf db appId = some app)
    (howner : app.user_id = userId)
    (hscan : scanRowOf db scanId = some scan)
    (hcons : scan.application_id = appId)
    (hai : env.aiOk = true)
    (hj : aiResults env app = j)
    (hv : jget j "vulnerabilities" = some (Json.arr vs))
    (hnn : Json.null ∉ vs)
    (hC : env.okScanCompleted = true) :
    (handler env req db).1 = Resp.ok j ∧
    (scanRowOf (handler env req db).2.1 scanId).map ScanRow.vulnerabilities_found =
      some (some vs.length) ∧
    vulnCountFor (handler env req db).2.1 scanId =
      vulnCountFor db scanId + (if env.okVulnInsert then vs.length else 0) := by
  have h1 : handler env req db =
      (Resp.ok j,
       markAppStatus env.okAppCompleted appId "completed"
         (insertVulnRows (env.okVulnInsert && !vs.isEmpty) scanId vs
           (markScanCompleted env scanId j (some vs.length)
             (markAppStatus env.okAppScanning appId "scanning"
               (markScanRunning env scanId db)))),
       [DbOp.updateScanRunning scanId, DbOp.updateAppScanning appId] ++
         [DbOp.updateScanCompleted scanId] ++
         (if vs.isEmpty then [] else [DbOp.insertVulns scanId vs.length]) ++
         [DbOp.updateAppCompleted appId]) := by
    rw [handler_ready env req db ah userId body scanId appId app scan
      hah huser hbody hparse happ howner hscan hcons]
    simp only [hai, if_true]
    rw [hj, persistPhase_arr env scanId appId j vs _ _ hv hnn]
  refine ⟨by rw [h1], ?_, ?_⟩
  · rw [h1]
    show (scanRowOf (markAppStatus env.okAppCompleted appId "completed"
      (insertVulnRows (env.okVulnInsert && !vs.isEmpty) scanId vs
        (markScanCompleted env scanId j (some vs.length)
          (markAppStatus env.okAppScanning appId "scanning"
            (markScanRunning env scanId db))))) scanId).map ScanRow.vulnerabilities_found = _
    rw [scanRowOf_markAppStatus, scanRowOf_insertVulnRows, scanRowOf_markScanCompleted,
      scanRowOf_markAppStatus, scanRowOf_markScanRunning, hscan]
    simp [hC, scanCompletedUpdate]
  · rw [h1]
    show vulnCountFor (markAppStatus env.okAppCompleted appId "completed"
      (insertVulnRows (env.okVulnInsert && !vs.isEmpty) scanId vs
        (markScanCompleted env scanId j (some vs.length)
          (markAppStatus env.okAppScanning appId "scanning"
            (markScanRunning env scanId db))))) scanId = _
    rw [vulnCountFor_markAppStatus, vulnCountFor_insertVulnRows, vulnCountFor_markScanCompleted,
      vulnCountFor_markAppStatus, vulnCountFor_markScanRunning]
    cases hb : env.okVulnInsert <;> cases vs <;> simp

theorem C1_count_is_list_length_not_rows_witness :
    (handler envBadParseNoInsert fixReq fixDB).1 = Resp.ok (fallbackResults "Demo App") ∧
    (scanRowOf (handler envBadParseNoInsert fixReq fixDB).2.1
      fixScanId).map ScanRow.vulnerabilities_found =
      some (some 1) ∧
    vulnCountFor (handler envBadParseNoInsert fixReq fixDB).2.1 fixScanId = 0 :=
  C1_count_is_list_length_not_rows envBadParseNoInsert fixReq fixDB "Bearer tok" "user-1" fixBody fixScanId fixAppId fixApp fixScan
    (fallbackResults "Demo App") [fallbackVuln "Demo App"]
    rfl (by decide) rfl (by decide) (by decide) rfl (by decide) rfl rfl (by decide)
    (by decide) (by decide) rfl

/-- C8: nothing guards the scan's status — for a scan that is already
`completed`, a further invocation with the same identifiers runs the full
pipeline again (running update, scanning update, completed update, a fresh
vulnerability insert, completed update) and adds a second batch of
`vs.length` vulnerability rows on top of those already present; the handler
is not idempotent. -/
theorem C8_rerun_inserts_second_batch (env : Env) (req : Request) (db : DB)
    (ah userId : String) (body : Json) (scanId appId : String)
    (app : AppRow) (scan : ScanRow) (j : Json) (vs : List Json)
    (hah : req.authHeader = some ah)
    (huser : env.userOf (bearerToken ah) = some userId)
    (hbody : req.body = some body)
    (hparse : safeParseReq body = some (scanId, appId))
    (happ : appRowOf db appId = some app)
    (howner : app.user_id = userId)
    (hscan : scanRowOf db scanId = some scan)
    (hcons : scan.application_id = appId)
    (_hcompleted : scan.status = "completed")
    (hai : env.aiOk = true)
    (hj : aiResults env app = j)
    (hv : jget j "vulnerabilities" = some (Json.arr vs))
    (hne : vs ≠ [])
    (hnn : Json.null ∉ vs)
    (hIns : env.okVulnInsert = true) :
    (handler env req db).1 = Resp.ok j ∧
    (handler env req db).2.2 =
      [DbOp.updateScanRunning scanId, DbOp.updateAppScanning appId,
       DbOp.updateScanCompleted scanId, DbOp.insertVulns scanId vs.length,
       DbOp.updateAppCompleted appId] ∧
    vulnCountFor (handler env req db).2.1 scanId = vulnCountFor db scanId + vs.length := by
  have h1 : handler env req db =
      (Resp.ok j,
       markAppStatus env.okAppCompleted appId "completed"
         (insertVulnRows (env.okVulnInsert && !vs.isEmpty) scanId vs
           (markScanCompleted env scanId j (some vs.length)
             (markAppStatus env.okAppScanning appId "scanning"
               (markScanRunning env scanId db)))),
       [DbOp.updateScanRunning scanId, DbOp.updateAppScanning appId] ++
         [DbOp.updateScanCompleted scanId] ++
         (if vs.isEmpty then [] else [DbOp.insertVulns scanId vs.length]) ++
         [DbOp.updateAppCompleted appId]) := by
    rw [handler_ready env req db ah userId body scanId appId app scan
      hah huser hbody hparse happ howner hscan hcons]
    simp only [hai, if_true]
    rw [hj, persistPhase_arr env scanId appId j vs _ _ hv hnn]
  have hempty : vs.isEmpty = false := by
    cases vs with
    | nil => exact absurd rfl hne
    | cons v0 vrest => rfl
  refine ⟨by rw [h1], ?_, ?_⟩
  · rw [h1]
    simp [hempty]
  · rw [h1]
    show vulnCountFor (markAppStatus env.okAppCompleted appId "completed"
      (insertVulnRows (env.okVulnInsert && !vs.isEmpty) scanId vs
        (markScanCompleted env scanId j (some vs.length)
          (markAppStatus env.okAppScanning appId "scanning"
            (markScanRunning env scanId db))))) scanId = _
    rw [vulnCountFor_markAppStatus, vulnCountFor_insertVulnRows, vulnCountFor_markScanCompleted,
      vulnCountFor_markAppStatus, vulnCountFor_markScanRunning]
    simp [hIns, hempty]

theorem C8_rerun_inserts_second_batch_witness :
    (handler envBadParse fixReq fixDBAfterRun).1 = Resp.ok (fallbackResults "Demo App") ∧
    (handler envBadParse fixReq fixDBAfterRun).2.2 =
      [DbOp.updateScanRunning fixScanId, DbOp.updateAppScanning fixAppId,
       DbOp.updateScanCompleted fixScanId, DbOp.insertVulns fixScanId 1,
       DbOp.updateAppCompleted fixAppId] ∧
    vulnCountFor (handler envBadParse fixReq fixDBAfterRun).2.1 fixScanId =
      vulnCountFor fixDBAfterRun fixScanId + 1 :=
  C8_rerun_inserts_second_batch envBadParse fixReq fixDBAfterRun "Bearer tok" "user-1"
    fixBody fixScanId fixAppId { fixApp with status := "completed" } fixScanCompleted
    (fallbackResults "Demo App") [fallbackVuln "Demo App"]
    rfl (by decide) rfl (by decide) (by decide) rfl (by decide) rfl rfl rfl (by decide)
    (by decide) (by decide) (by decide) rfl

/-- C10: once the six preconditions pass and the completion content yields a
vulnerability list, the response, the trace shape and the scan/application
terminal rows do not depend on the store's verdict on the vulnerability
insert (whose error object the handler discards): the scan row is written
`completed` with the list's length before the insert appears in the trace,
the insert is attempted exactly when the list is nonempty, the application
is marked `completed` afterwards, and the payload is the success payload —
even when the insert persisted no rows. -/
theorem C10_insert_outcome_ignored (env : Env) (req : Request) (db : DB)
    (ah userId : String) (body : Json) (scanId appId : String)
    (app : AppRow) (scan : ScanRow) (j : Json) (vs : List Json)
    (hah : req.authHeader = some ah)
    (huser : env.userOf (bearerToken ah) = some userId)
    (hbody : req.body = some body)
    (hparse : safeParseReq body = some (scanId, appId))
    (happ : appRowOf db appId = some app)
    (howner : app.user_id = userId)
    (hscan : scanRowOf db scanId = some scan)
    (hcons : scan.application_id = appId)
    (hai : env.aiOk = true)
    (hj : aiResults env app = j)
    (hv : jget j "vulnerabilities" = some (Json.arr vs))
    (hnn : Json.null ∉ vs)
    (hC : env.okScanCompleted = true)
    (hA : env.okAppCompleted = true) :
    (handler env req db).1 = Resp.ok j ∧
    (handler env req db).2.2 =
      [DbOp.updateScanRunning scanId, DbOp.updateAppScanning appId,
       DbOp.updateScanCompleted scanId] ++
        (if vs.isEmpty then [] else [DbOp.insertVulns scanId vs.length]) ++
        [DbOp.updateAppCompleted appId] ∧
    (scanRowOf (handler env req db).2.1 scanId).map ScanRow.status = some "completed" ∧
    (scanRowOf (handler env req db).2.1 scanId).map ScanRow.vulnerabilities_found =
      some (some vs.length) ∧
    appRowOf (handler env req db).2.1 appId = some { app with status := "completed" } ∧
    (env.okVulnInsert = false →
      vulnCountFor (handler env req db).2.1 scanId = vulnCountFor db scanId) := by
  have h1 : handler env req db =
      (Resp.ok j,
       markAppStatus env.okAppCompleted appId "completed"
         (insertVulnRows (env.okVulnInsert && !vs.isEmpty) scanId vs
           (markScanCompleted env scanId j (some vs.length)
             (markAppStatus env.okAppScanning appId "scanning"
               (markScanRunning env scanId db)))),
       [DbOp.updateScanRunning scanId, DbOp.updateAppScanning appId] ++
         [DbOp.updateScanCompleted scanId] ++
         (if vs.isEmpty then [] else [DbOp.insertVulns scanId vs.length]) ++
         [DbOp.updateAppCompleted appId]) := by
    rw [handler_ready env req db ah userId body scanId appId app scan
      hah huser hbody hparse happ howner hscan hcons]
    simp only [hai, if_true]
    rw [hj, persistPhase_arr env scanId appId j vs _ _ hv hnn]
  refine ⟨by rw [h1], ?_, ?_, ?_, ?_, ?_⟩
  · rw [h1]
    cases vs.isEmpty <;> simp
  · rw [h1]
    show (scanRowOf (markAppStatus env.okAppCompleted appId "completed"
      (insertVulnRows (env.okVulnInsert && !vs.isEmpty) scanId vs
        (markScanCompleted env scanId j (some vs.length)
          (markAppStatus env.okAppScanning appId "scanning"
            (markScanRunning env scanId db))))) scanId).map ScanRow.status = _
    rw [scanRowOf_markAppStatus, scanRowOf_insertVulnRows, scanRowOf_markScanCompleted,
      scanRowOf_markAppStatus, scanRowOf_markScanRunning, hscan]
    simp [hC, scanCompletedUpdate]
  · rw [h1]
    show (scanRowOf (markAppStatus env.okAppCompleted appId "completed"
      (insertVulnRows (env.okVulnInsert && !vs.isEmpty) scanId vs
        (markScanCompleted env scanId j (some vs.length)
          (markAppStatus env.okAppScanning appId "scanning"
            (markScanRunning env scanId db))))) scanId).map ScanRow.vulnerabilities_found = _
    rw [scanRowOf_markAppStatus, scanRowOf_insertVulnRows, scanRowOf_markScanCompleted,
      scanRowOf_markAppStatus, scanRowOf_markScanRunning, hscan]
    simp [hC, scanCompletedUpdate]
  · rw [h1]
    show appRowOf (markAppStatus env.okAppCompleted appId "completed"
      (insertVulnRows (env.okVulnInsert && !vs.isEmpty) scanId vs
        (markScanCompleted env scanId j (some vs.length)
          (markAppStatus env.okAppScanning appId "scanning"
            (markScanRunning env scanId db))))) appId = _
    rw [appRowOf_markAppStatus, appRowOf_insertVulnRows, appRowOf_markScanCompleted,
      appRowOf_markAppStatus, appRowOf_markScanRunning, happ]
    cases hSc : env.okAppScanning <;> simp [hA, hSc]
  · intro hb
    rw [h1]
    show vulnCountFor (markAppStatus env.okAppCompleted appId "completed"
      (insertVulnRows (env.okVulnInsert && !vs.isEmpty) scanId vs
        (markScanCompleted env scanId j (some vs.length)
          (markAppStatus env.okAppScanning appId "scanning"
            (markScanRunning env scanId db))))) scanId = _
    rw [vulnCountFor_markAppStatus, vulnCountFor_insertVulnRows, vulnCountFor_markScanCompleted,
      vulnCountFor_markAppStatus, vulnCountFor_markScanRunning]
    simp [hb]

theorem C10_insert_outcome_ignored_witness :
    (handler envBadParseNoInsert fixReq fixDB).1 = Resp.ok (fallbackResults "Demo App") ∧
    (handler envBadParseNoInsert fixReq fixDB).2.2 =
      [DbOp.updateScanRunning fixScanId, DbOp.updateAppScanning fixAppId,
       DbOp.updateScanCompleted fixScanId] ++
        (if ([fallbackVuln "Demo App"] : List Json).isEmpty then []
         else [DbOp.insertVulns fixScanId 1]) ++
        [DbOp.updateAppCompleted fixAppId] ∧
    (scanRowOf (handler envBadParseNoInsert fixReq fixDB).2.1 fixScanId).map ScanRow.status =
      some "completed" ∧
    (scanRowOf (handler envBadParseNoInsert fixReq
      fixDB).2.1 fixScanId).map ScanRow.vulnerabilities_found = some (some 1) ∧
    appRowOf (handler envBadParseNoInsert fixReq fixDB).2.1 fixAppId =
      some { fixApp with status := "completed" } ∧
    (envBadParseNoInsert.okVulnInsert = false →
      vulnCountFor (handler envBadParseNoInsert fixReq fixDB).2.1 fixScanId =
        vulnCountFor fixDB fixScanId) :=
  C10_insert_outcome_ignored envBadParseNoInsert fixReq fixDB "Bearer tok" "user-1"
    fixBody fixScanId fixAppId fixApp fixScan (fallbackResults "Demo App")
    [fallbackVuln "Demo App"]
    rfl (by decide) rfl (by decide) (by decide) rfl (by decide) rfl rfl (by decide)
    (by decide) (by decide) rfl rfl
